import Mathlib

/-!
Verification development for the lox-cpp bytecode interpreter.

Shallow embedding of the interpreter core, translated from the C++ sources:
  * value model           — src/value.hpp, src/value.cpp
  * chunk                 — src/chunk.hpp, src/chunk.cpp
  * jump-offset encoding  — src/compiler.cpp (split_jump_offset),
                            src/vm.cpp (get_jump_offset)
  * parser/compiler state — src/compiler.cpp
  * virtual machine       — src/vm.cpp, src/vm.hpp
  * garbage collector     — src/gc.cpp, src/gc.hpp

Conventions used throughout:
  * C++ `uint8_t` is a `Nat` reduced `% 256` where the width matters.
  * C++ `size_t` is `Nat`; C++ signed arithmetic is `Int`.
  * C++ `double` is Lean `Float` (both are IEEE-754 binary64).
  * Fallible code returns `Option`/`Except`; a thrown `std::runtime_error`
    (caught by `VM::run` and turned into `RUNTIME_ERROR`) is an `err` result
    carrying the exact message string; an out-of-range vector access or other
    undefined behaviour is a distinguished `oob` result.
  * Interned strings are modelled by their contents: interning makes content
    equality coincide with the pointer identity the C++ code relies on.
-/

namespace Lox

/-- Enum `InterpretResult` from value.hpp. -/
inductive InterpretResult where
  | OK : InterpretResult
  | COMPILE_ERROR : InterpretResult
  | RUNTIME_ERROR : InterpretResult
deriving DecidableEq

mutual

/-- Type `lox::Value` (value_def.hpp): `std::variant<std::monostate, bool, double, Obj*>`.
The `Obj*` alternative is modelled by the object contents. -/
inductive Value where
  | vnil : Value
  | vbool (b : Bool) : Value
  | vnum (x : Float) : Value
  | vobj (o : Obj) : Value

/-- The heap-object variants of value.hpp, carrying the attributes the VM
dispatches on.  `ObjClosure`'s function pointer is inlined (name, arity,
chunk); upvalue vectors and method tables are omitted here because no VM
instruction modelled below reads them (the GC embedding further down has its
own object-graph view that does include them). -/
inductive Obj where
  | ostring (s : String) : Obj
  | ofunction (name : String) (arity : Nat) (chunk : Chunk) : Obj
  | oclosure (name : String) (arity : Nat) (chunk : Chunk) : Obj
  | onative (name : String) (arity : Nat) : Obj
  | oclass (name : String) : Obj
  | oinstance (className : String) : Obj
  | oboundmethod : Obj

/-- Class `lox::Chunk` (chunk.hpp): byte buffer, constants table and debug-info
table of `(bytecode_offset, line)` pairs. -/
inductive Chunk where
  | mk (code : List Nat) (constants : List Value) (debuginfo : List (Nat × Nat)) : Chunk

end

def Chunk.code : Chunk → List Nat
  | .mk c _ _ => c

def Chunk.constants : Chunk → List Value
  | .mk _ k _ => k

def Chunk.debuginfo : Chunk → List (Nat × Nat)
  | .mk _ _ d => d

@[simp] theorem Chunk.code_mk (c k d) : (Chunk.mk c k d).code = c := rfl

@[simp] theorem Chunk.constants_mk (c k d) : (Chunk.mk c k d).constants = k := rfl

@[simp] theorem Chunk.debuginfo_mk (c k d) : (Chunk.mk c k d).debuginfo = d := rfl

/-- The empty chunk, as built by `Chunk::Chunk()`. -/
def Chunk.empty : Chunk := Chunk.mk [] [] []

/-- Method `Chunk::write(uint8_t byte, size_t line)` (chunk.cpp):
append the byte; push a new `DebugInfo(nbytes, line)` entry when the table is
empty or the last entry's line differs from `line`.  `nbytes` is the code size
before the append, i.e. the offset of the byte just written. -/
def Chunk.write (c : Chunk) (byte : Nat) (line : Nat) : Chunk :=
  let nbytes := c.code.length
  let dbg :=
    match c.debuginfo.getLast? with
    | none => c.debuginfo ++ [(nbytes, line)]
    | some e => if e.2 = line then c.debuginfo else c.debuginfo ++ [(nbytes, line)]
  Chunk.mk (c.code ++ [byte % 256]) c.constants dbg

/-- Method `Chunk::push_constant` (chunk.cpp): append to the constants vector and
return `constants.size() - 1`, the index of the value just added.  The chunk
itself never rejects a constant. -/
def Chunk.push_constant (c : Chunk) (v : Value) : Nat × Chunk :=
  (c.constants.length, Chunk.mk c.code (c.constants ++ [v]) c.debuginfo)

/-- Method `Chunk::patch_at_offset` (chunk.cpp): overwrite one byte; `code.at(offset)`
throws `std::out_of_range` for an invalid offset, modelled as `none`. -/
def Chunk.patch_at_offset (c : Chunk) (offset : Nat) (byte : Nat) : Option Chunk :=
  if offset < c.code.length then
    some (Chunk.mk (c.code.set offset (byte % 256)) c.constants c.debuginfo)
  else
    none

/-- Result of `Chunk::debuginfo_at` (chunk.cpp). -/
inductive LookupResult where
  /-- a line number was returned -/
  | ok (line : Nat) : LookupResult
  /-- the `std::runtime_error` thrown when the target precedes every entry -/
  | err_no_info : LookupResult
  /-- `std::lower_bound` returned `end()` and the code dereferences it:
  an out-of-bounds read (undefined behaviour) -/
  | ub_end_deref : LookupResult
deriving DecidableEq

/-- Index returned by `std::lower_bound(debuginfo.begin(), debuginfo.end(),
target, compare_by_offset)`: the first position whose `bytecode_offset` is not
less than `target`.  On input sorted by offset (the only inputs the chunk ever
builds) the binary search agrees with this linear characterisation. -/
def lower_bound_idx (entries : List (Nat × Nat)) (target : Nat) : Nat :=
  match entries with
  | [] => 0
  | e :: rest => if e.1 < target then lower_bound_idx rest target + 1 else 0

/-- Method `Chunk::debuginfo_at` (chunk.cpp), on the debug-info table:

    auto it = std::lower_bound(...);
    if (it->bytecode_offset == bytecode_offset) return it->line;
    else if (it == debuginfo.begin()) throw std::runtime_error(...);
    else { --it; return it->line; }

When `lower_bound` returns `end()` the first comparison dereferences the end
iterator — an out-of-bounds read, reported as `ub_end_deref`. -/
def debuginfo_at_list (entries : List (Nat × Nat)) (target : Nat) : LookupResult :=
  let idx := lower_bound_idx entries target
  match entries[idx]? with
  | none => LookupResult.ub_end_deref
  | some e =>
    if e.1 = target then LookupResult.ok e.2
    else if idx = 0 then LookupResult.err_no_info
    else LookupResult.ok (entries.getD (idx - 1) (0, 0)).2

def Chunk.debuginfo_at (c : Chunk) (target : Nat) : LookupResult :=
  debuginfo_at_list c.debuginfo target

/-- Fold a list of `(byte, line)` writes into a chunk, as the compiler's
`emit` calls do during compilation. -/
def write_all (c : Chunk) (ws : List (Nat × Nat)) : Chunk :=
  ws.foldl (fun acc bl => acc.write bl.1 bl.2) c

/-- Function `split_jump_offset` (compiler.cpp, anonymous namespace):

    uint8_t high_byte = static_cast<uint8_t>((offset >> 8) & 0xff);
    uint8_t low_byte = static_cast<uint8_t>(offset & 0xff);

`offset >> 8` on the (promoted) signed value is an arithmetic shift, i.e.
division by 256 rounding toward minus infinity — for the positive divisor 256
that is exactly Lean's Euclidean `/` on `Int`; masking with `0xff` takes the
low 8 bits of the two's-complement representation, i.e. the nonnegative
remainder `% 256`. -/
def split_jump_offset (offset : Int) : Nat × Nat :=
  (((offset / 256) % 256).toNat, (offset % 256).toNat)

/-- Function `get_jump_offset` (vm.cpp, anonymous namespace):

    int16_t jump_offset = (static_cast<int16_t>(high_byte) << 8) | low_byte;
    return static_cast<ptrdiff_t>(jump_offset);

The two `uint8_t` arguments are combined into `high * 256 + low` (the or of
disjoint bit ranges) and the resulting 16-bit pattern is reinterpreted as a
signed `int16_t` before widening. -/
def get_jump_offset (high_byte low_byte : Nat) : Int :=
  let combined : Nat := (high_byte % 256) * 256 + low_byte % 256
  if combined < 32768 then (combined : Int) else (combined : Int) - 65536

/-! ## Opcodes

Numeric values of `enum class OpCode` (chunk.hpp): CONSTANT = 0 through
GET_LOCAL = 17.  The enum in chunk.hpp ends there with a "more to come"
comment while vm.cpp and compiler.cpp already use the later members, so the
numbering of those members is not present under src/. -/

def opCONSTANT : Nat := 0
def opRETURN : Nat := 1
def opNEGATE : Nat := 2
def opADD : Nat := 3
def opSUBTRACT : Nat := 4
def opMULTIPLY : Nat := 5
def opDIVIDE : Nat := 6
def opNOT : Nat := 7
def opEQUAL : Nat := 8
def opGREATER : Nat := 9
def opLESS : Nat := 10
def opPRINT : Nat := 11
def opPOP : Nat := 12
def opGET_GLOBAL : Nat := 13
def opSET_GLOBAL : Nat := 14
def opDEFINE_GLOBAL : Nat := 15
def opSET_LOCAL : Nat := 16
def opGET_LOCAL : Nat := 17

/-- Modelled from the spec: the opcodes used by vm.cpp and compiler.cpp whose
enum members are missing from chunk.hpp ("more to come").  Compiler and VM
share one enum, so any fixed assignment of distinct values past 17 produces
the same observable behaviour; they are numbered here in order of appearance
in the vm.cpp dispatch loop. -/
def opJUMP_IF_FALSE : Nat := 18
def opJUMP : Nat := 19
def opCALL : Nat := 20
def opCLOSURE : Nat := 21
def opGET_UPVALUE : Nat := 22
def opSET_UPVALUE : Nat := 23
def opCLOSE_UPVALUE : Nat := 24
def opCLASS : Nat := 25
def opDEFINE_METHOD : Nat := 26
def opGET_PROPERTY : Nat := 27
def opSET_PROPERTY : Nat := 28

/-! ## value.cpp helpers -/

/-- Function `lox::is_truthy` (value.cpp): `nil` and `false` are falsy, everything else
is truthy. -/
def is_truthy : Value → Bool
  | Value.vnil => false
  | Value.vbool b => b
  | Value.vnum _ => true
  | Value.vobj _ => true

/-- Function `lox::add` (value.cpp).  Two doubles add; two `Obj*` must both be strings
and concatenate (the result is interned through `gc.get_string_ptr`, so it is
represented by its contents); every other combination throws. -/
def add (a b : Value) : Except String Value :=
  match a, b with
  | Value.vnum x, Value.vnum y => Except.ok (Value.vnum (x + y))
  | Value.vobj oa, Value.vobj ob =>
    match oa, ob with
    | Obj.ostring s1, Obj.ostring s2 => Except.ok (Value.vobj (Obj.ostring (s1 ++ s2)))
    | _, _ => Except.error "operands to `+` must be two numbers or two strings"
  | _, _ => Except.error "operands to `+` must be two numbers or two strings"

/-- Test `std::holds_alternative<double>(v)`. -/
def Value.is_double : Value → Bool
  | Value.vnum _ => true
  | _ => false

/-- Whether `v` holds an `Obj*` whose type is `ObjType::STRING`. -/
def Value.is_string_obj : Value → Bool
  | Value.vobj (Obj.ostring _) => true
  | _ => false

/-! ## Parser / compiler state (compiler.cpp)

A `Parser` owns a stack of `Compiler` frames; each frame populates one
`ObjFunction`'s chunk.  The fragment modelled here is the state visible to
`make_constant`, `emit`, `emit_constant`, `patch_jump`,
`emit_auto_return_value` and `finalise_function`: the chunk of the function
currently being compiled, the single error slot `errmsg`, the line of the
previously consumed token, and the current function's kind. -/

/-- Enum `FunctionType` (compiler.hpp): TOPLEVEL, FUNCTION, CLASSMETHOD, CLASSINIT. -/
inductive FunctionType where
  | TOPLEVEL : FunctionType
  | FUNCTION : FunctionType
  | CLASSMETHOD : FunctionType
  | CLASSINIT : FunctionType
deriving DecidableEq

structure PState where
  chunk : Chunk
  /-- `Parser::errmsg : std::optional<std::pair<std::string, size_t>>` -/
  errmsg : Option (String × Nat)
  /-- `previous.line`, the line used by `emit` and error reports -/
  prevLine : Nat
  fnType : FunctionType

namespace Parser

/-- Method `Parser::error` (compiler.cpp): store the message/line pair (overwriting
any earlier one). -/
def error (st : PState) (message : String) (line : Nat) : PState :=
  { st with errmsg := some (message, line) }

/-- Method `Parser::has_error`. -/
def has_error (st : PState) : Bool :=
  st.errmsg.isSome

/-- Method `Parser::emit(uint8_t byte)` (compiler.hpp): write the byte to the current
chunk at `previous.line`. -/
def emit (st : PState) (byte : Nat) : PState :=
  { st with chunk := st.chunk.write byte st.prevLine }

/-- Method `Parser::make_constant` (compiler.cpp): push onto the constants table and
record the compile error `"Too many constants in one chunk."` when the
returned index exceeds `UINT8_MAX` (255). -/
def make_constant (st : PState) (v : Value) : Nat × PState :=
  let r := st.chunk.push_constant v
  let st1 : PState := { st with chunk := r.2 }
  if r.1 > 255 then (r.1, error st1 "Too many constants in one chunk." st.prevLine)
  else (r.1, st1)

/-- Method `Parser::emit_constant` (compiler.cpp): `make_constant`, then emit the
CONSTANT opcode followed by the index narrowed with `static_cast<uint8_t>`. -/
def emit_constant (st : PState) (v : Value) : Nat × PState :=
  let r := make_constant st v
  (r.1, emit (emit r.2 opCONSTANT) (r.1 % 256))

/-- Method `Parser::patch_jump` (compiler.cpp): compute the displacement
`target_byte - jump_byte - 2` in signed arithmetic, record the compile error
`"Too much code to jump over."` if it leaves the `int16_t` range, otherwise
split it into two bytes patched at `jump_byte` and `jump_byte + 1`.
`none` is the `std::out_of_range` thrown by `patch_at_offset`. -/
def patch_jump (st : PState) (jump_byte target_byte : Nat) : Option PState :=
  let jump_offset : Int := (target_byte : Int) - (jump_byte : Int) - 2
  if jump_offset > 32767 ∨ jump_offset < -32768 then
    some (error st "Too much code to jump over." st.prevLine)
  else
    let hl := split_jump_offset jump_offset
    match st.chunk.patch_at_offset jump_byte hl.1 with
    | none => none
    | some c1 =>
      match c1.patch_at_offset (jump_byte + 1) hl.2 with
      | none => none
      | some c2 => some { st with chunk := c2 }

/-- Method `Parser::emit_auto_return_value` (compiler.cpp): for a `CLASSINIT` frame
emit `GET_LOCAL 0` (slot 0 holds `this`); otherwise emit the constant `nil`. -/
def emit_auto_return_value (st : PState) : PState :=
  if st.fnType = FunctionType.CLASSINIT then
    emit (emit st opGET_LOCAL) 0
  else
    (emit_constant st Value.vnil).2

/-- Method `Parser::finalise_function` (compiler.cpp): with an error recorded, report
it and return `nullptr` (here `none`); otherwise append the implicit return
sequence (`emit_auto_return_value`; `RETURN`) and hand back the function —
modelled by its finished chunk — together with the updated parser state. -/
def finalise_function (st : PState) : Option Chunk × PState :=
  if has_error st then (none, st)
  else
    let st1 := emit (emit_auto_return_value st) opRETURN
    (some st1.chunk, st1)

end Parser

/-! ## Virtual machine (vm.cpp, vm.hpp)

The value stack (`std::vector<lox::Value>`, back = top) is a `List Value`
whose head is the top of the stack, so the C++ element `stack[i]` (absolute
index from the bottom) is list position `stack.length - 1 - i`.  The call
frame vector (back = current frame) likewise has the current frame at the
head.  Open upvalues are tracked by the absolute stack slot their `location`
points at; the value copied into `closed` when one is closed is not tracked,
since no instruction modelled here reads it back. -/

def MAX_CALL_FRAMES : Nat := 64

/-- Value of `64 * UINT8_MAX`. -/
def MAX_STACK_SIZE : Nat := 64 * 255

/-- Struct `CallFrame` (vm.hpp): closure, instruction pointer, and the absolute
stack index of the callee's slot 0.  The closure is inlined as the function's
name, arity and chunk. -/
structure CallFrame where
  fnName : String
  fnArity : Nat
  chunk : Chunk
  ip : Nat
  stack_start : Nat

structure VMState where
  /-- value stack, head = top -/
  stack : List Value
  /-- call frames, head = current (innermost) frame -/
  call_frames : List CallFrame
  /-- absolute stack slots referenced by open upvalues -/
  open_upvalues : List Nat

/-- Outcome of one iteration of the `VM::run` dispatch loop. -/
inductive StepResult where
  /-- the loop continues with this state -/
  | ok (s : VMState) : StepResult
  /-- `run` returned this result (top-level RETURN, or the bytecode ended) -/
  | done (r : InterpretResult) : StepResult
  /-- a `std::runtime_error` with this message was thrown; `run` catches it
  and returns `RUNTIME_ERROR` -/
  | err (msg : String) : StepResult
  /-- an out-of-bounds access: `std::vector::operator[]` past the end
  (undefined behaviour) or `at()` throwing `std::out_of_range`, which
  `VM::run` does not catch -/
  | oob : StepResult
  /-- instruction intentionally not modelled (closures/upvalues, globals,
  EQUAL on raw object identity, PRINT) -/
  | notModelled : StepResult

/-- Method `CallFrame::read_byte`: `closure->function->chunk.at(ip)`, a `uint8_t`. -/
def read_byte (c : Chunk) (i : Nat) : Option Nat :=
  (c.code[i]?).map (· % 256)

/-- C++ `stack[i]` with absolute (from-the-bottom) index `i`;
`none` when the access would be out of bounds. -/
def vecAt (st : List Value) (i : Nat) : Option Value :=
  if i < st.length then st[st.length - 1 - i]? else none

/-- C++ `stack[i] = v` with absolute index `i` (caller has checked bounds). -/
def vecSet (st : List Value) (i : Nat) (v : Value) : List Value :=
  st.set (st.length - 1 - i) v

/-- Effect of `std::vector::resize(k)` on the value stack: drop elements from the back
(the top) down to length `k`, or grow with value-initialised elements
(`std::monostate`, i.e. nil). -/
def resizeTo (st : List Value) (k : Nat) : List Value :=
  if k ≤ st.length then st.drop (st.length - k)
  else List.replicate (k - st.length) Value.vnil ++ st

/-- Method `VM::shift_ip`, a relative jump from instruction pointer `base` (vm.hpp):
negative result or a result past the end of the chunk throws. -/
def shift_ip (c : Chunk) (base : Nat) (offset : Int) (s : VMState) (f : CallFrame)
    (restf : List CallFrame) : StepResult :=
  let target : Int := (base : Int) + offset
  if target < 0 then StepResult.err "shift_ip: negative offset out of bounds"
  else if target.toNat > c.code.length then
    StepResult.err "shift_ip: positive offset out of bounds"
  else StepResult.ok { s with call_frames := { f with ip := target.toNat } :: restf }

/-- Template `handle_binary_op` (vm.hpp): pop `b`, peek `a`; both must be doubles, and
the top of the stack is replaced by `op a b`. -/
def handle_binary_op (op : Float → Float → Value) (s : VMState) (f : CallFrame)
    (restf : List CallFrame) : StepResult :=
  match s.stack with
  | [] => StepResult.err "stack_pop: stack underflow"
  | b :: rest1 =>
    match rest1 with
    | [] => StepResult.err "stack_peek: stack underflow"
    | a :: rest =>
      match a, b with
      | Value.vnum x, Value.vnum y =>
        StepResult.ok { s with stack := op x y :: rest,
                               call_frames := { f with ip := f.ip + 1 } :: restf }
      | _, _ => StepResult.err "operands must be numbers"

/-- One iteration of the `VM::run` dispatch loop (vm.cpp).  `impl` gives the
host callback of each native function by name (returning `Except.error` for a
thrown `std::runtime_error`, as `sleep` does).  If the frame is at the end of
its chunk the loop exits: exactly at the end yields `OK`, past it throws
`"unexpected end of bytecode"`. -/
def step (impl : String → List Value → Except String Value) (s : VMState) : StepResult :=
  match s.call_frames with
  | [] => StepResult.oob
  | f :: restf =>
    if f.ip ≥ f.chunk.code.length then
      if f.ip = f.chunk.code.length then StepResult.done InterpretResult.OK
      else StepResult.err "unexpected end of bytecode"
    else
      match read_byte f.chunk f.ip with
      | none => StepResult.oob
      | some instr =>
        if instr = opCONSTANT then
          -- read_constant: operand byte indexes the constants table
          match read_byte f.chunk (f.ip + 1) with
          | none => StepResult.oob
          | some idx =>
            match f.chunk.constants[idx]? with
            | none => StepResult.oob
            | some c =>
              if s.stack.length ≥ MAX_STACK_SIZE then StepResult.err "stack overflow"
              else StepResult.ok { s with stack := c :: s.stack,
                                          call_frames := { f with ip := f.ip + 2 } :: restf }
        else if instr = opRETURN then
          match s.stack with
          | [] => StepResult.err "stack_pop: stack underflow"
          | retval :: rest =>
            -- close_upvalues_after(&stack[frame.stack_start])
            let upv := s.open_upvalues.filter (fun loc => loc < f.stack_start)
            if restf.isEmpty then
              -- top-level return: pop the top-level function, halt with OK
              match rest with
              | [] => StepResult.err "stack_pop: stack underflow"
              | _ :: _ => StepResult.done InterpretResult.OK
            else
              let resized := resizeTo rest f.stack_start
              if resized.length ≥ MAX_STACK_SIZE then StepResult.err "stack overflow"
              else StepResult.ok { stack := retval :: resized,
                                   call_frames := restf,
                                   open_upvalues := upv }
        else if instr = opNEGATE then
          match s.stack with
          | [] => StepResult.err "stack_pop: stack underflow"
          | v :: rest =>
            match v with
            | Value.vnum x =>
              if rest.length ≥ MAX_STACK_SIZE then StepResult.err "stack overflow"
              else StepResult.ok { s with stack := Value.vnum (-x) :: rest,
                                          call_frames := { f with ip := f.ip + 1 } :: restf }
            | _ => StepResult.err "operand must be a number"
        else if instr = opADD then
          match s.stack with
          | [] => StepResult.err "stack_pop: stack underflow"
          | b :: rest1 =>
            match rest1 with
            | [] => StepResult.err "stack_peek: stack underflow"
            | a :: rest =>
              match a, b with
              | Value.vnum x, Value.vnum y =>
                -- fast path: stack_replace_top(a + b)
                StepResult.ok { s with stack := Value.vnum (x + y) :: rest,
                                       call_frames := { f with ip := f.ip + 1 } :: restf }
              | _, _ =>
                -- stack_pop(); stack_push(lox::add(a, b, _gc))
                match add a b with
                | Except.error m => StepResult.err m
                | Except.ok v =>
                  if rest.length ≥ MAX_STACK_SIZE then StepResult.err "stack overflow"
                  else StepResult.ok { s with stack := v :: rest,
                                              call_frames := { f with ip := f.ip + 1 } :: restf }
        else if instr = opSUBTRACT then
          handle_binary_op (fun a b => Value.vnum (a - b)) s f restf
        else if instr = opMULTIPLY then
          handle_binary_op (fun a b => Value.vnum (a * b)) s f restf
        else if instr = opDIVIDE then
          handle_binary_op (fun a b => Value.vnum (a / b)) s f restf
        else if instr = opNOT then
          -- stack_modify_top(λ v, !is_truthy(v))
          match s.stack with
          | [] => StepResult.err "stack_modify_top: stack underflow"
          | v :: rest =>
            StepResult.ok { s with stack := Value.vbool (!is_truthy v) :: rest,
                                   call_frames := { f with ip := f.ip + 1 } :: restf }
        else if instr = opGREATER then
          handle_binary_op (fun a b => Value.vbool (decide (a > b))) s f restf
        else if instr = opLESS then
          handle_binary_op (fun a b => Value.vbool (decide (a < b))) s f restf
        else if instr = opPOP then
          match s.stack with
          | [] => StepResult.err "stack_pop: stack underflow"
          | _ :: rest =>
            StepResult.ok { s with stack := rest,
                                   call_frames := { f with ip := f.ip + 1 } :: restf }
        else if instr = opSET_LOCAL then
          match read_byte f.chunk (f.ip + 1) with
          | none => StepResult.oob
          | some slot =>
            -- dispatch-loop pre-check (note: compares the raw slot, strictly)
            if slot > s.stack.length then StepResult.err "SET_LOCAL: invalid local variable index"
            else
              -- set_local_variable(slot, stack_peek())
              match s.stack with
              | [] => StepResult.err "stack_peek: stack underflow"
              | top :: _ =>
                let si := f.stack_start + slot
                if si ≥ s.stack.length then
                  StepResult.err "set_local_variable: invalid local variable index"
                else
                  StepResult.ok { s with stack := vecSet s.stack si top,
                                         call_frames := { f with ip := f.ip + 2 } :: restf }
        else if instr = opGET_LOCAL then
          match read_byte f.chunk (f.ip + 1) with
          | none => StepResult.oob
          | some slot =>
            if slot > s.stack.length then StepResult.err "GET_LOCAL: invalid local variable index"
            else
              -- get_local_variable(slot): offset by the frame's stack_start
              let si := f.stack_start + slot
              match vecAt s.stack si with
              | none => StepResult.err "get_local_variable: invalid local variable index"
              | some v =>
                if s.stack.length ≥ MAX_STACK_SIZE then StepResult.err "stack overflow"
                else StepResult.ok { s with stack := v :: s.stack,
                                            call_frames := { f with ip := f.ip + 2 } :: restf }
        else if instr = opJUMP_IF_FALSE then
          match s.stack with
          | [] => StepResult.err "stack_peek: stack underflow"
          | cond :: _ =>
            if !is_truthy cond then
              match read_byte f.chunk (f.ip + 1), read_byte f.chunk (f.ip + 2) with
              | some hi, some lo => shift_ip f.chunk (f.ip + 3) (get_jump_offset hi lo) s f restf
              | _, _ => StepResult.oob
            else
              shift_ip f.chunk (f.ip + 1) 2 s f restf
        else if instr = opJUMP then
          match read_byte f.chunk (f.ip + 1), read_byte f.chunk (f.ip + 2) with
          | some hi, some lo => shift_ip f.chunk (f.ip + 3) (get_jump_offset hi lo) s f restf
          | _, _ => StepResult.oob
        else if instr = opCALL then
          match read_byte f.chunk (f.ip + 1) with
          | none => StepResult.oob
          | some nargs =>
            -- callee: stack[stack.size() - 1 - nargs] (unchecked operator[])
            match s.stack[nargs]? with
            | none => StepResult.oob
            | some callee =>
              match callee with
              | Value.vobj (Obj.oclosure nm ar ch) =>
                -- VM::call
                if s.call_frames.length ≥ MAX_CALL_FRAMES then
                  StepResult.err "stack overflow: too many nested function calls"
                else if ar ≠ nargs then
                  StepResult.err ("expected " ++ toString ar ++ " arguments but got " ++ toString nargs)
                else
                  StepResult.ok { s with
                    call_frames := (CallFrame.mk nm ar ch 0 (s.stack.length - nargs - 1) :: { f with ip := f.ip + 2 } :: restf) }
              | Value.vobj (Obj.onative nm ar) =>
                -- ObjNativeFunction::call: arity check, then the host callback;
                -- pop callee and arguments, push the returned value
                if nargs ≠ ar then
                  StepResult.err ("expected " ++ toString ar ++ " arguments but got " ++ toString nargs)
                else
                  match impl nm ((s.stack.take nargs).reverse) with
                  | Except.error m => StepResult.err m
                  | Except.ok retval =>
                    let rest := s.stack.drop (nargs + 1)
                    if rest.length ≥ MAX_STACK_SIZE then StepResult.err "stack overflow"
                    else StepResult.ok { s with stack := retval :: rest,
                                                call_frames := { f with ip := f.ip + 2 } :: restf }
              | Value.vobj _ =>
                -- neither dynamic_cast succeeds (Class, Instance, BoundMethod,
                -- String, Function all land here)
                StepResult.err "can only call closure or native function"
              | _ => StepResult.err "objptr was not a pointer to Obj"
        else
          StepResult.notModelled

/-- Iterate `step` up to `n` times, stopping at the first non-`ok` outcome. -/
def runSteps (impl : String → List Value → Except String Value) : Nat → VMState → StepResult
  | 0, s => StepResult.ok s
  | n + 1, s =>
    match step impl s with
    | StepResult.ok s1 => runSteps impl n s1
    | r => r

/-! ## Garbage collector (gc.cpp, gc.hpp)

The GC walks an object graph through raw pointers; here objects live in a
list of entries addressed by numeric ids (the spec's arena-with-handles
view of the same graph).  Each entry mirrors the `Obj` header fields the
collector uses: the variant, its child references, and `is_marked`.  The GC
never reads any other payload, so primitive `Value`s collapse to `gprim`. -/

/-- A `lox::Value` as seen by `GC::mark_as_grey(const Value&)`: either not an
`Obj*` (no-op) or an object reference. -/
inductive GValue where
  | gprim : GValue
  | gobjref (id : Nat) : GValue
deriving DecidableEq

/-- Heap object variants with the child references `GC::gc` can reach:
function constants, an upvalue's closed value, a closure's function and
upvalues, a class's name and method table, an instance's class and fields, a
bound method's receiver and method. -/
inductive GObj where
  | gstring : GObj
  | gnative : GObj
  | gfunction (constants : List GValue) : GObj
  | gupvalue (closed : GValue) : GObj
  | gclosure (function : Nat) (upvalues : List Nat) : GObj
  | gclass (name : Nat) (methods : List (Nat × Nat)) : GObj
  | ginstance (klass : Nat) (fields : List (Nat × GValue)) : GObj
  | gboundmethod (receiver : Nat) (method : Nat) : GObj
deriving DecidableEq

/-- One object on the GC's intrusive list, with its `is_marked` header bit. -/
structure GCEntry where
  id : Nat
  obj : GObj
  is_marked : Bool
deriving DecidableEq

/-- GC state: the object list (head first, like the intrusive list), the grey
stack (head = `back()` of the vector), and the interned-string table mapping
contents to the id of the `ObjString`. -/
structure GCState where
  objects : List GCEntry
  grey_stack : List Nat
  interned_strings : List (String × Nat)
deriving DecidableEq

def GCState.find (st : GCState) (id : Nat) : Option GCEntry :=
  st.objects.find? (fun e => e.id = id)

def GCState.isMarked (st : GCState) (id : Nat) : Bool :=
  match st.find id with
  | some e => e.is_marked
  | none => false

/-- Method `GC::mark_as_grey(Obj*)` (gc.cpp): for a non-null, unmarked object set
`is_marked` and push it on the grey stack; otherwise do nothing.  An id
absent from the object list corresponds to a pointer the GC does not own and
cannot occur in a well-formed state; it is a no-op here. -/
def mark_as_grey_obj (st : GCState) (id : Nat) : GCState :=
  match st.find id with
  | none => st
  | some e =>
    if e.is_marked then st
    else
      { st with
        objects := st.objects.map (fun x => if x.id = id then { x with is_marked := true } else x),
        grey_stack := id :: st.grey_stack }

/-- Method `GC::mark_as_grey(const Value&)` (gc.cpp): only an `Obj*` alternative is
marked. -/
def mark_as_grey_val (st : GCState) (v : GValue) : GCState :=
  match v with
  | GValue.gprim => st
  | GValue.gobjref id => mark_as_grey_obj st id

/-- The body of the grey-propagation `switch` in `GC::gc` (gc.cpp), applied
to one popped object.  The switch has cases for STRING, NATIVE_FUNCTION,
FUNCTION, UPVALUE and CLOSURE only; CLASS, INSTANCE and BOUND_METHOD have no
case, so control falls out of the switch without marking anything. -/
def blacken (st : GCState) (o : GObj) : GCState :=
  match o with
  | GObj.gstring => st
  | GObj.gnative => st
  | GObj.gfunction constants => constants.foldl mark_as_grey_val st
  | GObj.gupvalue closed => mark_as_grey_val st closed
  | GObj.gclosure fid ups =>
    ups.foldl mark_as_grey_obj (mark_as_grey_obj st fid)
  | GObj.gclass _ _ => st
  | GObj.ginstance _ _ => st
  | GObj.gboundmethod _ _ => st

/-- The grey-propagation loop of `GC::gc`: pop from the back of the grey
stack (a null pointer is skipped) and process the object.  The loop is run on
fuel; each iteration pops one entry and any entry pushed marks a previously
unmarked object, so `2 * |objects| + |grey_stack|` strictly bounds the number
of iterations and the fuel used below never runs out. -/
def propagate : Nat → GCState → GCState
  | 0, st => st
  | fuel + 1, st =>
    match st.grey_stack with
    | [] => st
    | id :: rest =>
      let st1 := { st with grey_stack := rest }
      match st1.find id with
      | none => propagate fuel st1
      | some e => propagate fuel (blacken st1 e.obj)

/-- Method `GC::gc` (gc.cpp): grey propagation, then the interned-string purge
(erase entries whose string is unmarked), then the sweep (unlink and free
unmarked objects, clear the mark on survivors).  The caller has already
marked the roots grey. -/
def gc (st : GCState) : GCState :=
  let st1 := propagate (2 * st.objects.length + st.grey_stack.length + 1) st
  let st2 := { st1 with
    interned_strings := st1.interned_strings.filter (fun kv => st1.isMarked kv.2) }
  { st2 with
    objects := (st2.objects.filter (fun e => e.is_marked)).map
      (fun e => { e with is_marked := false }) }

/-! ## Top-level entry (vm.cpp `VM::invoke_toplevel`)

    parser->parse();
    ObjFunction* top_level_fn = parser->finalise_function();   // null on error
    stack_push(top_level_fn);
    ObjClosure* top_level_closure = _gc.alloc<ObjClosure>(top_level_fn);
    stack_pop();
    stack_push(top_level_closure);
    call(top_level_closure, 0);                // reads callee->function->arity
    if (top_level_closure == nullptr) {
      return InterpretResult::COMPILE_ERROR;
    } else {
      auto result = run();
      return result;
    }

`finalise_function` is abstracted to its result: `none` exactly when the
parser's error state is non-empty at the end of compilation.  The `run()`
outcome is likewise passed in, since only the wiring around it is at issue. -/

/-- The freshly allocated `ObjClosure`, whose `function` member is the raw
`ObjFunction*` returned by `finalise_function` (possibly null). -/
structure TopClosure where
  function : Option Chunk

/-- Note that `GC::alloc` returns `new T(...)`: the allocated pointer is never null. -/
def closure_is_nullptr (_c : TopClosure) : Bool := false

/-- Outcome of `VM::invoke_toplevel`. -/
inductive TopOutcome where
  | result (r : InterpretResult) : TopOutcome
  /-- `VM::call` evaluated `callee->function->arity` with
  `callee->function == nullptr`: a null-pointer dereference -/
  | null_function_deref : TopOutcome
deriving DecidableEq

/-- Method `VM::invoke_toplevel` (vm.cpp): `parsed` is `finalise_function`'s result
(`none` iff a compile error was recorded), `runResult` the value `run()`
would produce. -/
def invoke_toplevel (parsed : Option Chunk) (runResult : InterpretResult) : TopOutcome :=
  let top_level_closure : TopClosure := TopClosure.mk parsed
  -- call(top_level_closure, 0): the frame-count check passes (0 < 64);
  -- the arity check dereferences callee->function
  match top_level_closure.function with
  | none => TopOutcome.null_function_deref
  | some _fn =>
    if closure_is_nullptr top_level_closure then TopOutcome.result InterpretResult.COMPILE_ERROR
    else TopOutcome.result runResult

/-! ## Concrete example states used in the theorems below -/

/-- A concrete GC heap: a root-marked `ObjInstance` (id 3) of class id 2
(whose name is the string id 1), with one field whose key is string id 1 and
whose value is the string id 0.  The instance is on the grey stack, as after
root marking. -/
def gcInstanceHeap : GCState :=
  { objects :=
      [ GCEntry.mk 0 GObj.gstring false,
        GCEntry.mk 1 GObj.gstring false,
        GCEntry.mk 2 (GObj.gclass 1 []) false,
        GCEntry.mk 3 (GObj.ginstance 2 [(1, GValue.gobjref 0)]) true ],
    grey_stack := [3],
    interned_strings := [("value", 0), ("Klass", 1)] }

/-- A parser state whose current chunk already holds 255 constants and has no
error recorded. -/
def pstate255 : PState :=
  { chunk := Chunk.mk [] (List.replicate 255 Value.vnil) [],
    errmsg := none,
    prevLine := 7,
    fnType := FunctionType.FUNCTION }

/-- A host-callback environment with no native functions. -/
def no_natives : String → List Value → Except String Value :=
  fun _ _ => Except.error "unknown native"

/-- A VM state about to execute `CALL 0` whose callee is a Class object. -/
def callClassState : VMState :=
  { stack := [Value.vobj (Obj.oclass "A")],
    call_frames := [CallFrame.mk "#toplevel#" 0 (Chunk.mk [opCALL, 0] [] [(0, 1)]) 0 0],
    open_upvalues := [] }

/-- Invariant maintained by `Chunk::write` along a compilation whose emit
lines never decrease: debug-info offsets strictly increase, lines are
non-decreasing, every offset lies inside the code, and every line is at most
`L` (the last line written). -/
def ChunkInv (c : Chunk) (L : Nat) : Prop :=
  c.debuginfo.Pairwise (fun a b => a.1 < b.1) ∧
  c.debuginfo.Pairwise (fun a b => a.2 ≤ b.2) ∧
  (∀ e ∈ c.debuginfo, e.1 < c.code.length) ∧
  (∀ e ∈ c.debuginfo, e.2 ≤ L)

/-! ## Theorems -/

/-! Projection lemmas for the chunk and parser operations. -/

@[simp] theorem Chunk.write_code (c : Chunk) (b l : Nat) :
    (c.write b l).code = c.code ++ [b % 256] := by
  simp [Chunk.write]

@[simp] theorem Chunk.write_constants (c : Chunk) (b l : Nat) :
    (c.write b l).constants = c.constants := by
  simp [Chunk.write]

@[simp] theorem Parser.emit_chunk_code (st : PState) (b : Nat) :
    (Parser.emit st b).chunk.code = st.chunk.code ++ [b % 256] := by
  simp [Parser.emit]

@[simp] theorem Parser.emit_chunk_constants (st : PState) (b : Nat) :
    (Parser.emit st b).chunk.constants = st.chunk.constants := by
  simp [Parser.emit]

@[simp] theorem Parser.emit_errmsg (st : PState) (b : Nat) :
    (Parser.emit st b).errmsg = st.errmsg := by
  simp [Parser.emit]

@[simp] theorem Parser.emit_prevLine (st : PState) (b : Nat) :
    (Parser.emit st b).prevLine = st.prevLine := by
  simp [Parser.emit]

@[simp] theorem Parser.emit_fnType (st : PState) (b : Nat) :
    (Parser.emit st b).fnType = st.fnType := by
  simp [Parser.emit]

theorem Parser.make_constant_fst (st : PState) (v : Value) :
    (Parser.make_constant st v).1 = st.chunk.constants.length := by
  simp only [Parser.make_constant, Chunk.push_constant]
  split <;> rfl

theorem Parser.make_constant_chunk (st : PState) (v : Value) :
    (Parser.make_constant st v).2.chunk =
      Chunk.mk st.chunk.code (st.chunk.constants ++ [v]) st.chunk.debuginfo := by
  simp only [Parser.make_constant, Chunk.push_constant, Parser.error]
  split <;> rfl

theorem Parser.make_constant_errmsg (st : PState) (v : Value) :
    (Parser.make_constant st v).2.errmsg =
      if st.chunk.constants.length > 255
      then some ("Too many constants in one chunk.", st.prevLine)
      else st.errmsg := by
  simp only [Parser.make_constant, Chunk.push_constant, Parser.error]
  split <;> rfl

theorem Parser.make_constant_prevLine (st : PState) (v : Value) :
    (Parser.make_constant st v).2.prevLine = st.prevLine := by
  simp only [Parser.make_constant, Chunk.push_constant, Parser.error]
  split <;> rfl

theorem Parser.make_constant_fnType (st : PState) (v : Value) :
    (Parser.make_constant st v).2.fnType = st.fnType := by
  simp only [Parser.make_constant, Chunk.push_constant, Parser.error]
  split <;> rfl

/-- C1: refuted by the code.  The grey-propagation switch in `GC::gc`
(gc.cpp) has no `case` for CLASS, INSTANCE or BOUND_METHOD, so popping a grey
`ObjInstance` marks neither its class nor its field values.  On a heap whose
only root is an instance, the collection frees the instance's class and its
field string (and purges the interned-string table), keeping only the
instance itself — the children of a reachable instance ARE freed, contrary to
the claim. -/
theorem gc_instance_children_freed :
    (gc gcInstanceHeap).objects =
        [GCEntry.mk 3 (GObj.ginstance 2 [(1, GValue.gobjref 0)]) false] ∧
      (gc gcInstanceHeap).find 0 = none ∧
      (gc gcInstanceHeap).find 2 = none ∧
      (gc gcInstanceHeap).interned_strings = [] := by
  decide

/-- C2: refuted by the code.  When compilation fails, `finalise_function`
returns a null `ObjFunction*`; `VM::invoke_toplevel` (vm.cpp) nevertheless
allocates the top-level closure around it and calls `call(top_level_closure,
0)`, which dereferences `callee->function->arity` — a null-pointer
dereference.  The compile-error test `top_level_closure == nullptr` examines
the freshly allocated closure (never null) instead of the function, so
`COMPILE_ERROR` is unreachable and a failed compilation crashes instead. -/
theorem invoke_toplevel_compile_error_crashes :
    ∀ r : InterpretResult, invoke_toplevel none r = TopOutcome.null_function_deref := by
  intro r
  rfl

/-- C7: the lookup of `Chunk::debuginfo_at` (chunk.cpp) behaves as claimed
when the target hits an entry exactly (greatest entry ≤ target) and when the
target precedes the first entry (error thrown); but when the target exceeds
every recorded offset, `std::lower_bound` returns `end()` and the very first
comparison `it->bytecode_offset == bytecode_offset` dereferences the end
iterator — an out-of-bounds read — instead of returning the last entry's
line as the claim states. -/
theorem debuginfo_at_past_last_entry_oob :
    debuginfo_at_list [(0, 1), (4, 2)] 4 = LookupResult.ok 2 ∧
      debuginfo_at_list [(0, 1), (4, 2)] 3 = LookupResult.ok 1 ∧
      debuginfo_at_list [(5, 1)] 3 = LookupResult.err_no_info ∧
      debuginfo_at_list [(0, 1)] 5 = LookupResult.ub_end_deref := by
  decide

set_option maxRecDepth 8000 in
/-- C4, counterexample: adding a constant when 255 constants are already
present is NOT a compile error.  `Parser::make_constant` (compiler.cpp) only
errors when the returned index exceeds `UINT8_MAX`; the 256th constant gets
index 255, which still fits, and no error is recorded. -/
theorem make_constant_at_255_no_error :
    (Parser.make_constant pstate255 Value.vnil).1 = 255 ∧
      (Parser.make_constant pstate255 Value.vnil).2.errmsg = none := by
  constructor
  · simp [Parser.make_constant, Chunk.push_constant, pstate255]
  · simp [Parser.make_constant, Parser.error, Chunk.push_constant, pstate255]

/-- C4, amended: `Parser::make_constant` returns the index of the constant
just pushed (the previous constant count); it records the compile error
`"Too many constants in one chunk."` exactly when that index exceeds 255
(i.e. when 256 constants were already present — the 257th constant onwards),
and whenever no error is recorded the CONSTANT operand byte emitted by
`emit_constant` is the index itself, which fits in 8 bits. -/
theorem make_constant_index_bound (st : PState) (v : Value) (h : st.errmsg = none) :
    (Parser.make_constant st v).1 = st.chunk.constants.length ∧
      (Parser.make_constant st v).2.chunk.constants = st.chunk.constants ++ [v] ∧
      ((Parser.make_constant st v).2.errmsg = none ↔ st.chunk.constants.length ≤ 255) ∧
      (st.chunk.constants.length ≤ 255 →
        (Parser.emit_constant st v).2.chunk.code =
          st.chunk.code ++ [opCONSTANT, (Parser.make_constant st v).1]) := by
  refine ⟨Parser.make_constant_fst st v, ?_, ?_, ?_⟩
  · rw [Parser.make_constant_chunk, Chunk.constants_mk]
  · rw [Parser.make_constant_errmsg, h]
    split
    · rename_i hgt
      constructor
      · intro hc
        exact absurd hc (by simp)
      · intro hle
        omega
    · rename_i hle
      simp at hle
      simp [hle]
  · intro hle
    have hlt : st.chunk.constants.length < 256 := by omega
    simp only [Parser.emit_constant, Parser.emit_chunk_code, Parser.make_constant_chunk,
      Parser.make_constant_fst, Chunk.code_mk]
    simp [opCONSTANT, Nat.mod_eq_of_lt hlt]

/-- Witness for `make_constant_index_bound` at a concrete parser state. -/
theorem make_constant_index_bound_witness :
    (Parser.make_constant (PState.mk Chunk.empty none 4 FunctionType.FUNCTION) Value.vnil).1 = 0 ∧
      (Parser.make_constant (PState.mk Chunk.empty none 4 FunctionType.FUNCTION) Value.vnil).2.errmsg = none := by
  have h := make_constant_index_bound (PState.mk Chunk.empty none 4 FunctionType.FUNCTION) Value.vnil rfl
  refine ⟨?_, ?_⟩
  · simpa [Chunk.empty] using h.1
  · exact (h.2.2.1).mpr (by simp [Chunk.empty])

/-- C5: the compiler's `split_jump_offset` (compiler.cpp) and the VM's
`get_jump_offset` (vm.cpp) are mutually inverse on the whole signed 16-bit
range, and `Parser::patch_jump` records the compile error
`"Too much code to jump over."` for any displacement outside that range. -/
theorem jump_encoding (o : Int) (st : PState) (jb tb : Nat) :
    (-32768 ≤ o → o ≤ 32767 →
      get_jump_offset (split_jump_offset o).1 (split_jump_offset o).2 = o) ∧
    ((tb : Int) - (jb : Int) - 2 > 32767 ∨ (tb : Int) - (jb : Int) - 2 < -32768 →
      Parser.patch_jump st jb tb =
        some (Parser.error st "Too much code to jump over." st.prevLine)) := by
  constructor
  · intro h1 h2
    simp only [get_jump_offset, split_jump_offset]
    split <;> omega
  · intro h
    unfold Parser.patch_jump
    rw [if_pos h]

/-- Witness for `jump_encoding`: round trip at offset `-2`, and a patch whose
displacement (39998) exceeds the signed 16-bit range records the error. -/
theorem jump_encoding_witness :
    get_jump_offset (split_jump_offset (-2)).1 (split_jump_offset (-2)).2 = -2 ∧
      Parser.patch_jump (PState.mk Chunk.empty none 3 FunctionType.TOPLEVEL) 0 40000 =
        some (Parser.error (PState.mk Chunk.empty none 3 FunctionType.TOPLEVEL)
          "Too much code to jump over."
          (PState.mk Chunk.empty none 3 FunctionType.TOPLEVEL).prevLine) :=
  ⟨(jump_encoding (-2) (PState.mk Chunk.empty none 3 FunctionType.TOPLEVEL) 0 40000).1
      (by norm_num) (by norm_num),
    (jump_encoding (-2) (PState.mk Chunk.empty none 3 FunctionType.TOPLEVEL) 0 40000).2
      (by norm_num)⟩

/-- C3, counterexample: executing `CALL nargs` with a Class callee does NOT
construct an Instance.  The CALL case of `VM::run` (vm.cpp) only attempts
`dynamic_cast` to `ObjClosure` and `ObjNativeFunction`; for a Class both fail
and it throws the runtime error "can only call closure or native function". -/
theorem call_class_counterexample :
    step no_natives callClassState =
      StepResult.err "can only call closure or native function" := by
  rfl

/-- C3, amended: for every CALL instruction whose callee value
`stack[top - nargs]` is a Class object (and likewise any object that is
neither a Closure nor a NativeFunction), the VM raises the runtime error
"can only call closure or native function"; no Instance is constructed and
no `init` call happens. -/
theorem vm_call_on_class_errors (impl : String → List Value → Except String Value)
    (stk : List Value) (upv : List Nat) (f : CallFrame) (restf : List CallFrame)
    (nargs : Nat) (cname : String)
    (hip : f.ip < f.chunk.code.length)
    (hop : read_byte f.chunk f.ip = some opCALL)
    (harg : read_byte f.chunk (f.ip + 1) = some nargs)
    (hcallee : stk[nargs]? = some (Value.vobj (Obj.oclass cname))) :
    step impl (VMState.mk stk (f :: restf) upv) =
      StepResult.err "can only call closure or native function" := by
  have hnotend : ¬ (f.ip ≥ f.chunk.code.length) := by omega
  simp only [step, if_neg hnotend, hop, harg, hcallee]
  norm_num [opCALL, opCONSTANT, opRETURN, opNEGATE, opADD, opSUBTRACT, opMULTIPLY,
    opDIVIDE, opNOT, opGREATER, opLESS, opPOP, opSET_LOCAL, opGET_LOCAL,
    opJUMP_IF_FALSE, opJUMP]

/-- Witness for `vm_call_on_class_errors` at a concrete state (a Class callee
named "B" called with 0 arguments). -/
theorem vm_call_on_class_errors_witness :
    step no_natives
        (VMState.mk [Value.vobj (Obj.oclass "B")]
          [CallFrame.mk "f" 0 (Chunk.mk [opCALL, 0] [] [(0, 1)]) 0 0] []) =
      StepResult.err "can only call closure or native function" :=
  vm_call_on_class_errors no_natives [Value.vobj (Obj.oclass "B")] []
    (CallFrame.mk "f" 0 (Chunk.mk [opCALL, 0] [] [(0, 1)]) 0 0) [] 0 "B"
    (by decide) (by decide) (by decide) rfl

/-- C10: every GET_LOCAL / SET_LOCAL executed by the VM is bounds-checked.
When `frame.stack_start + slot` is not a valid stack index the step produces
a runtime error (one of the dispatch-loop pre-check, `stack_peek`, or the
`get_local_variable` / `set_local_variable` guard) without touching the
stack; when it is valid, GET_LOCAL pushes exactly `stack[stack_start + slot]`
and SET_LOCAL overwrites exactly that slot with the (unpopped) top value. -/
theorem vm_local_access_bounds (impl : String → List Value → Except String Value)
    (stk : List Value) (upv : List Nat) (f : CallFrame) (restf : List CallFrame)
    (slot : Nat)
    (hip : f.ip < f.chunk.code.length)
    (harg : read_byte f.chunk (f.ip + 1) = some slot) :
    (read_byte f.chunk f.ip = some opGET_LOCAL →
      f.stack_start + slot ≥ stk.length →
      step impl (VMState.mk stk (f :: restf) upv) =
        StepResult.err (if slot > stk.length
          then "GET_LOCAL: invalid local variable index"
          else "get_local_variable: invalid local variable index")) ∧
    (read_byte f.chunk f.ip = some opGET_LOCAL →
      ∀ v, f.stack_start + slot < stk.length →
      stk.length < MAX_STACK_SIZE →
      vecAt stk (f.stack_start + slot) = some v →
      step impl (VMState.mk stk (f :: restf) upv) =
        StepResult.ok (VMState.mk (v :: stk) ({ f with ip := f.ip + 2 } :: restf) upv)) ∧
    (read_byte f.chunk f.ip = some opSET_LOCAL →
      f.stack_start + slot ≥ stk.length →
      step impl (VMState.mk stk (f :: restf) upv) =
        StepResult.err (if slot > stk.length
          then "SET_LOCAL: invalid local variable index"
          else if stk.isEmpty then "stack_peek: stack underflow"
          else "set_local_variable: invalid local variable index")) ∧
    (read_byte f.chunk f.ip = some opSET_LOCAL →
      ∀ top rest, stk = top :: rest →
      f.stack_start + slot < stk.length →
      step impl (VMState.mk stk (f :: restf) upv) =
        StepResult.ok (VMState.mk (vecSet stk (f.stack_start + slot) top)
          ({ f with ip := f.ip + 2 } :: restf) upv)) := by
  have hnotend : ¬ (f.ip ≥ f.chunk.code.length) := by omega
  refine ⟨?_, ?_, ?_, ?_⟩
  · intro hop hge
    simp only [step, if_neg hnotend, hop, harg]
    norm_num [opGET_LOCAL, opCONSTANT, opRETURN, opNEGATE, opADD, opSUBTRACT, opMULTIPLY,
      opDIVIDE, opNOT, opGREATER, opLESS, opPOP, opSET_LOCAL]
    by_cases hslot : slot > stk.length
    · simp [hslot]
    · have hnone : vecAt stk (f.stack_start + slot) = none := by
        unfold vecAt
        rw [if_neg (by omega)]
      simp [hslot, hnone]
  · intro hop v hlt hcap hat
    simp only [step, if_neg hnotend, hop, harg]
    norm_num [opGET_LOCAL, opCONSTANT, opRETURN, opNEGATE, opADD, opSUBTRACT, opMULTIPLY,
      opDIVIDE, opNOT, opGREATER, opLESS, opPOP, opSET_LOCAL]
    have hslot : ¬ (slot > stk.length) := by omega
    simp [hslot, hat, if_neg (by omega : ¬ (stk.length ≥ MAX_STACK_SIZE))]
  · intro hop hge
    simp only [step, if_neg hnotend, hop, harg]
    norm_num [opGET_LOCAL, opCONSTANT, opRETURN, opNEGATE, opADD, opSUBTRACT, opMULTIPLY,
      opDIVIDE, opNOT, opGREATER, opLESS, opPOP, opSET_LOCAL]
    by_cases hslot : slot > stk.length
    · simp [hslot]
    · cases stk with
      | nil =>
        have hz : slot = 0 := by
          simp at hslot
          omega
        subst hz
        norm_num
      | cons top rest =>
        have h1 : ¬ (rest.length + 1 < slot) := by
          simp at hslot
          omega
        have h2 : rest.length + 1 ≤ f.stack_start + slot := by
          simpa using hge
        simp [hslot, h1, h2]
  · intro hop top rest hstk hlt
    subst hstk
    simp only [step, if_neg hnotend, hop, harg]
    norm_num [opGET_LOCAL, opCONSTANT, opRETURN, opNEGATE, opADD, opSUBTRACT, opMULTIPLY,
      opDIVIDE, opNOT, opGREATER, opLESS, opPOP, opSET_LOCAL]
    have hlen : f.stack_start + slot < rest.length + 1 := by simpa using hlt
    have h1 : ¬ (rest.length + 1 < slot) := by omega
    have h2 : ¬ (rest.length + 1 ≤ f.stack_start + slot) := by omega
    simp [h1, h2]

/-- Witness for `vm_local_access_bounds`: a GET_LOCAL whose effective index
(stack_start 1 + slot 2 = 3) is past the end of a 2-element stack errors. -/
theorem vm_local_access_bounds_witness :
    step no_natives
        (VMState.mk [Value.vnil, Value.vbool true]
          [CallFrame.mk "f" 0 (Chunk.mk [opGET_LOCAL, 2] [] [(0, 1)]) 0 1] []) =
      StepResult.err "get_local_variable: invalid local variable index" := by
  have h := (vm_local_access_bounds no_natives [Value.vnil, Value.vbool true] []
    (CallFrame.mk "f" 0 (Chunk.mk [opGET_LOCAL, 2] [] [(0, 1)]) 0 1) [] 2
    (by decide) (by decide)).1 (by decide) (by decide)
  simpa using h

/-- C8: semantics of ADD (vm.cpp run loop and `lox::add` in value.cpp).  With
`a` below `b` on the stack: two numbers push the IEEE-754 sum; two strings
push the (interned) concatenation `a ++ b`; every other combination of
operand types raises the runtime error "operands to `+` must be two numbers
or two strings" and pushes nothing. -/
theorem vm_add_semantics (impl : String → List Value → Except String Value)
    (upv : List Nat) (f : CallFrame) (restf : List CallFrame)
    (a b : Value) (rest : List Value)
    (hip : f.ip < f.chunk.code.length)
    (hop : read_byte f.chunk f.ip = some opADD)
    (hcap : rest.length + 2 ≤ MAX_STACK_SIZE) :
    (∀ x y, a = Value.vnum x → b = Value.vnum y →
      step impl (VMState.mk (b :: a :: rest) (f :: restf) upv) =
        StepResult.ok (VMState.mk (Value.vnum (x + y) :: rest)
          ({ f with ip := f.ip + 1 } :: restf) upv)) ∧
    (∀ sa sb, a = Value.vobj (Obj.ostring sa) → b = Value.vobj (Obj.ostring sb) →
      step impl (VMState.mk (b :: a :: rest) (f :: restf) upv) =
        StepResult.ok (VMState.mk (Value.vobj (Obj.ostring (sa ++ sb)) :: rest)
          ({ f with ip := f.ip + 1 } :: restf) upv)) ∧
    ((a.is_double && b.is_double) = false →
      (a.is_string_obj && b.is_string_obj) = false →
      step impl (VMState.mk (b :: a :: rest) (f :: restf) upv) =
        StepResult.err "operands to `+` must be two numbers or two strings") := by
  have hnotend : ¬ (f.ip ≥ f.chunk.code.length) := by omega
  have hpush : ¬ (rest.length ≥ MAX_STACK_SIZE) := by omega
  refine ⟨?_, ?_, ?_⟩
  · intro x y ha hb
    subst ha
    subst hb
    simp only [step, if_neg hnotend, hop]
    norm_num [opADD, opCONSTANT, opRETURN, opNEGATE]
  · intro sa sb ha hb
    subst ha
    subst hb
    simp only [step, if_neg hnotend, hop]
    norm_num [opADD, opCONSTANT, opRETURN, opNEGATE, add, if_neg hpush]
  · intro hnum hstr
    simp only [step, if_neg hnotend, hop]
    norm_num [opADD, opCONSTANT, opRETURN, opNEGATE]
    cases a with
    | vnil => cases b with
      | vobj ob => cases ob <;> simp [add, if_neg hpush]
      | _ => simp [add, if_neg hpush]
    | vbool ab => cases b with
      | vobj ob => cases ob <;> simp [add, if_neg hpush]
      | _ => simp [add, if_neg hpush]
    | vnum ax => cases b with
      | vnum bx => simp [Value.is_double] at hnum
      | vobj ob => cases ob <;> simp [add, if_neg hpush]
      | _ => simp [add, if_neg hpush]
    | vobj oa => cases b with
      | vobj ob => cases oa <;> cases ob <;> simp_all [add, Value.is_string_obj]
      | _ => simp [add]

/-- Witness for `vm_add_semantics`: `1.5 + 2.25` on a concrete stack pushes
the sum. -/
theorem vm_add_semantics_witness :
    step no_natives
        (VMState.mk [Value.vnum 2.25, Value.vnum 1.5]
          [CallFrame.mk "f" 0 (Chunk.mk [opADD] [] [(0, 1)]) 0 0] []) =
      StepResult.ok (VMState.mk [Value.vnum (1.5 + 2.25)]
        [CallFrame.mk "f" 0 (Chunk.mk [opADD] [] [(0, 1)]) 1 0] []) := by
  have h := (vm_add_semantics no_natives []
    (CallFrame.mk "f" 0 (Chunk.mk [opADD] [] [(0, 1)]) 0 0) []
    (Value.vnum 1.5) (Value.vnum 2.25) []
    (by decide) (by decide) (by decide)).1 1.5 2.25 rfl rfl
  simpa using h

theorem resizeTo_length (st : List Value) (k : Nat) (h : k ≤ st.length) :
    (resizeTo st k).length = k := by
  unfold resizeTo
  rw [if_pos h]
  simp
  omega

/-- C9: the implicit return.  `Parser::finalise_function` (compiler.cpp), on
an error-free compile, appends `emit_auto_return_value` followed by RETURN to
the function's chunk: `GET_LOCAL 0` (this) for an initializer, and the
constant `nil` for every other function kind; and executing that appended
`CONSTANT nil; RETURN` tail in the VM (a call that fell off the end of the
body) pops the callee's stack window and pushes `nil` for the caller — the
function returns nil. -/
theorem implicit_return_nil (st : PState)
    (impl : String → List Value → Except String Value)
    (f g : CallFrame) (morefr : List CallFrame)
    (stk : List Value) (upv : List Nat) (k : Nat) (code0 : List Nat) :
    (st.errmsg = none → st.fnType = FunctionType.CLASSINIT →
      (Parser.finalise_function st).1.map Chunk.code =
        some (st.chunk.code ++ [opGET_LOCAL, 0, opRETURN])) ∧
    (st.errmsg = none → st.fnType ≠ FunctionType.CLASSINIT →
      (Parser.finalise_function st).1.map Chunk.code =
        some (st.chunk.code ++ [opCONSTANT, st.chunk.constants.length % 256, opRETURN]) ∧
      (Parser.finalise_function st).1.map Chunk.constants =
        some (st.chunk.constants ++ [Value.vnil]) ∧
      (st.chunk.constants.length ≤ 255 → (Parser.finalise_function st).2.errmsg = none)) ∧
    (f.chunk.code = code0 ++ [opCONSTANT, k, opRETURN] → f.ip = code0.length →
      k < 256 →
      f.chunk.constants[k]? = some Value.vnil →
      f.stack_start ≤ stk.length → stk.length < MAX_STACK_SIZE →
      runSteps impl 2 (VMState.mk stk (f :: g :: morefr) upv) =
        StepResult.ok (VMState.mk (Value.vnil :: resizeTo stk f.stack_start)
          (g :: morefr) (upv.filter (fun loc => loc < f.stack_start)))) := by
  refine ⟨?_, ?_, ?_⟩
  · intro h1 h2
    simp [Parser.finalise_function, Parser.has_error, h1, Parser.emit_auto_return_value, h2,
      opGET_LOCAL, opRETURN]
  · intro h1 h2
    refine ⟨?_, ?_, ?_⟩
    · simp [Parser.finalise_function, Parser.has_error, h1, Parser.emit_auto_return_value, h2,
        Parser.emit_constant, Parser.make_constant_chunk, Parser.make_constant_fst,
        opCONSTANT, opRETURN]
    · simp [Parser.finalise_function, Parser.has_error, h1, Parser.emit_auto_return_value, h2,
        Parser.emit_constant, Parser.make_constant_chunk]
    · intro hle
      simp [Parser.finalise_function, Parser.has_error, h1, Parser.emit_auto_return_value, h2,
        Parser.emit_constant, Parser.make_constant_errmsg, Nat.not_lt.mpr hle]
  · intro hcode hip0 hk hconst hss hcap
    have hlen : f.chunk.code.length = code0.length + 3 := by
      rw [hcode]
      simp
    have hb0 : read_byte f.chunk f.ip = some opCONSTANT := by
      unfold read_byte
      rw [hcode, hip0, List.getElem?_append_right (le_refl _)]
      simp [opCONSTANT]
    have hb1 : read_byte f.chunk (f.ip + 1) = some k := by
      unfold read_byte
      rw [hcode, hip0, List.getElem?_append_right (by omega)]
      simp [Nat.mod_eq_of_lt hk]
    have hb2 : read_byte f.chunk (f.ip + 2) = some opRETURN := by
      unfold read_byte
      rw [hcode, hip0, List.getElem?_append_right (by omega)]
      simp [opRETURN]
    have hstep1 : step impl (VMState.mk stk (f :: g :: morefr) upv) =
        StepResult.ok (VMState.mk (Value.vnil :: stk)
          ({ f with ip := f.ip + 2 } :: g :: morefr) upv) := by
      have hne : ¬ (f.ip ≥ f.chunk.code.length) := by omega
      simp only [step, if_neg hne, hb0, hconst]
      norm_num [opCONSTANT]
      simp [hb1, hconst, if_neg (by omega : ¬ (stk.length ≥ MAX_STACK_SIZE))]
    have hstep2 : step impl (VMState.mk (Value.vnil :: stk)
        ({ f with ip := f.ip + 2 } :: g :: morefr) upv) =
        StepResult.ok (VMState.mk (Value.vnil :: resizeTo stk f.stack_start)
          (g :: morefr) (upv.filter (fun loc => loc < f.stack_start))) := by
      have hne : ¬ (f.ip + 2 ≥ f.chunk.code.length) := by omega
      simp only [step, if_neg hne, hb2]
      norm_num [opRETURN, opCONSTANT]
      have hrl : ¬ (MAX_STACK_SIZE ≤ (resizeTo stk f.stack_start).length) := by
        rw [resizeTo_length stk f.stack_start hss]
        omega
      simp [hrl]
    simp only [runSteps, hstep1, hstep2]

/-- Witness for `implicit_return_nil`: finalising a concrete error-free
non-initializer parser state appends `CONSTANT nil; RETURN`, and running that
tail from a concrete call returns nil to the caller. -/
theorem implicit_return_nil_witness :
    (Parser.finalise_function (PState.mk Chunk.empty none 2 FunctionType.FUNCTION)).1.map
        Chunk.code = some [opCONSTANT, 0, opRETURN] ∧
      runSteps no_natives 2
          (VMState.mk [Value.vbool true]
            [CallFrame.mk "f" 0 (Chunk.mk [opCONSTANT, 0, opRETURN] [Value.vnil] [(0, 1)]) 0 0,
              CallFrame.mk "g" 0 (Chunk.mk [opRETURN] [] [(0, 1)]) 0 0] []) =
        StepResult.ok (VMState.mk [Value.vnil]
          [CallFrame.mk "g" 0 (Chunk.mk [opRETURN] [] [(0, 1)]) 0 0] []) := by
  constructor
  · have h := (implicit_return_nil (PState.mk Chunk.empty none 2 FunctionType.FUNCTION)
      no_natives (CallFrame.mk "f" 0 Chunk.empty 0 0) (CallFrame.mk "g" 0 Chunk.empty 0 0)
      [] [] [] 0 []).2.1 rfl (by decide)
    simpa [Chunk.empty] using h.1
  · have h := (implicit_return_nil (PState.mk Chunk.empty none 2 FunctionType.FUNCTION)
      no_natives
      (CallFrame.mk "f" 0 (Chunk.mk [opCONSTANT, 0, opRETURN] [Value.vnil] [(0, 1)]) 0 0)
      (CallFrame.mk "g" 0 (Chunk.mk [opRETURN] [] [(0, 1)]) 0 0)
      [] [Value.vbool true] [] 0 []).2.2 rfl rfl (by decide) rfl (by decide) (by decide)
    simpa [resizeTo] using h

/-! Facts about `lower_bound_idx` and `debuginfo_at_list` on offset-sorted
tables, leading to the line-table monotonicity theorem (C6). -/

theorem lower_bound_prefix_lt (l : List (Nat × Nat)) (t : Nat) :
    ∀ k, k < lower_bound_idx l t → (l.getD k (0, 0)).1 < t := by
  induction l with
  | nil =>
    intro k hk
    simp [lower_bound_idx] at hk
  | cons e rest ih =>
    intro k hk
    simp only [lower_bound_idx] at hk
    split at hk
    · rename_i he
      cases k with
      | zero => simpa using he
      | succ k2 =>
        rw [List.getD_cons_succ]
        exact ih k2 (by omega)
    · omega

theorem lower_bound_at_ge (l : List (Nat × Nat)) (t : Nat)
    (h : lower_bound_idx l t < l.length) :
    t ≤ (l.getD (lower_bound_idx l t) (0, 0)).1 := by
  induction l with
  | nil => simp at h
  | cons e rest ih =>
    simp only [lower_bound_idx] at h ⊢
    split
    · rename_i he
      rw [List.getD_cons_succ]
      rw [if_pos he] at h
      exact ih (by simpa using h)
    · rename_i he
      rw [List.getD_cons_zero]
      omega

theorem pairwise_getD {R : (Nat × Nat) → (Nat × Nat) → Prop} (l : List (Nat × Nat))
    (hp : l.Pairwise R) (i j : Nat) (hij : i < j) (hj : j < l.length) :
    R (l.getD i (0, 0)) (l.getD j (0, 0)) := by
  have hi : i < l.length := lt_trans hij hj
  have h := List.pairwise_iff_get.mp hp ⟨i, hi⟩ ⟨j, hj⟩ hij
  simpa [List.getD_eq_getElem?_getD, List.getElem?_eq_getElem, hi, hj] using h

/-- On an offset-sorted table, an `ok` lookup result is the line of the
greatest entry whose offset is ≤ the target. -/
theorem debuginfo_ok_spec (l : List (Nat × Nat)) (t : Nat)
    (hs : l.Pairwise (fun a b => a.1 < b.1)) (ln : Nat)
    (h : debuginfo_at_list l t = LookupResult.ok ln) :
    ∃ j, j < l.length ∧ (l.getD j (0, 0)).1 ≤ t ∧
      (∀ m, m < l.length → (l.getD m (0, 0)).1 ≤ t → m ≤ j) ∧
      (l.getD j (0, 0)).2 = ln := by
  simp only [debuginfo_at_list] at h
  cases hsome : l[lower_bound_idx l t]? with
  | none =>
    simp only [hsome] at h
    exact absurd h (by simp)
  | some e =>
    simp only [hsome] at h
    have hlt : lower_bound_idx l t < l.length := by
      by_contra hge
      rw [List.getElem?_eq_none_iff.mpr (by omega)] at hsome
      cases hsome
    have hgetD : l.getD (lower_bound_idx l t) (0, 0) = e := by
      simp [List.getD_eq_getElem?_getD, hsome]
    by_cases heq : e.1 = t
    · rw [if_pos heq] at h
      simp only [LookupResult.ok.injEq] at h
      refine ⟨lower_bound_idx l t, hlt, by rw [hgetD, heq], ?_, by rw [hgetD]; exact h⟩
      intro m hm hle
      by_contra hgt
      have hmono := pairwise_getD l hs (lower_bound_idx l t) m (by omega) hm
      rw [hgetD] at hmono
      omega
    · rw [if_neg heq] at h
      by_cases h0 : lower_bound_idx l t = 0
      · rw [if_pos h0] at h
        exact absurd h (by simp)
      · rw [if_neg h0] at h
        simp only [LookupResult.ok.injEq] at h
        refine ⟨lower_bound_idx l t - 1, by omega, ?_, ?_, h⟩
        · have := lower_bound_prefix_lt l t (lower_bound_idx l t - 1) (by omega)
          omega
        · intro m hm hle
          by_contra hgt
          have hge2 : t ≤ (l.getD (lower_bound_idx l t) (0, 0)).1 := lower_bound_at_ge l t hlt
          rcases Nat.eq_or_lt_of_le (by omega : lower_bound_idx l t ≤ m) with heq2 | hlt2
          · rw [← heq2] at hle
            rw [hgetD] at hle hge2
            exact heq (by omega)
          · have hmono := pairwise_getD l hs (lower_bound_idx l t) m hlt2 hm
            omega

/-- On a table sorted by offset with non-decreasing lines, `ok` lookup
results are monotone in the target offset. -/
theorem debuginfo_ok_monotone (l : List (Nat × Nat))
    (hs : l.Pairwise (fun a b => a.1 < b.1))
    (hl : l.Pairwise (fun a b => a.2 ≤ b.2))
    (t1 t2 l1 l2 : Nat) (h12 : t1 ≤ t2)
    (h1 : debuginfo_at_list l t1 = LookupResult.ok l1)
    (h2 : debuginfo_at_list l t2 = LookupResult.ok l2) : l1 ≤ l2 := by
  obtain ⟨j1, hj1, hle1, _, he1⟩ := debuginfo_ok_spec l t1 hs l1 h1
  obtain ⟨j2, hj2, hle2, hmax2, he2⟩ := debuginfo_ok_spec l t2 hs l2 h2
  have hj12 : j1 ≤ j2 := hmax2 j1 hj1 (le_trans hle1 h12)
  rcases Nat.eq_or_lt_of_le hj12 with he | hlt
  · rw [← he1, ← he2, he]
  · have := pairwise_getD l hl j1 j2 hlt hj2
    omega

theorem write_ChunkInv (c : Chunk) (L b l : Nat) (h : ChunkInv c L) (hL : L ≤ l) :
    ChunkInv (c.write b l) l := by
  obtain ⟨hs, hln, hoff, hline⟩ := h
  unfold ChunkInv Chunk.write
  cases hlast : c.debuginfo.getLast? with
  | none =>
    have hnil : c.debuginfo = [] := List.getLast?_eq_none_iff.mp hlast
    simp [hnil]
  | some e =>
    by_cases heq : e.2 = l
    · simp only [hlast, if_pos heq, Chunk.debuginfo_mk, Chunk.code_mk]
      refine ⟨hs, hln, ?_, ?_⟩
      · intro a ha
        have := hoff a ha
        simp
        omega
      · intro a ha
        exact le_trans (hline a ha) hL
    · simp only [hlast, if_neg heq, Chunk.debuginfo_mk, Chunk.code_mk]
      refine ⟨?_, ?_, ?_, ?_⟩
      · rw [List.pairwise_append]
        exact ⟨hs, List.pairwise_singleton _ _,
          fun a ha b2 hb2 => by
            simp at hb2
            rw [hb2]
            exact hoff a ha⟩
      · rw [List.pairwise_append]
        exact ⟨hln, List.pairwise_singleton _ _,
          fun a ha b2 hb2 => by
            simp at hb2
            rw [hb2]
            exact le_trans (hline a ha) hL⟩
      · intro a ha
        simp at ha ⊢
        rcases ha with ha | ha
        · have := hoff a ha
          omega
        · rw [ha]
          simp
      · intro a ha
        simp at ha
        rcases ha with ha | ha
        · exact le_trans (hline a ha) hL
        · rw [ha]

theorem write_all_ChunkInv (ws : List (Nat × Nat)) :
    ∀ (c : Chunk) (L : Nat), ChunkInv c L →
      List.Chain (· ≤ ·) L (ws.map Prod.snd) →
      ∃ M, ChunkInv (write_all c ws) M := by
  induction ws with
  | nil =>
    intro c L h _
    exact ⟨L, h⟩
  | cons w tl ih =>
    intro c L h hch
    rw [List.map_cons, List.chain_cons] at hch
    exact ih (c.write w.1 w.2) w.2 (write_ChunkInv c L w.1 w.2 h hch.1) hch.2

theorem empty_ChunkInv : ChunkInv Chunk.empty 0 := by
  refine ⟨?_, ?_, ?_, ?_⟩ <;> simp [Chunk.empty]

/-- C6: for every chunk built by a sequence of `Chunk::write` calls whose
lines never decrease (as during compilation, where `previous.line` only
grows), the line lookup is monotone: whenever `debuginfo_at` yields a line
for each of two offsets `o1 ≤ o2`, the lines satisfy `line(o1) ≤ line(o2)`. -/
theorem chunk_line_table_monotone (ws : List (Nat × Nat))
    (hw : List.Chain (· ≤ ·) 0 (ws.map Prod.snd))
    (o1 o2 l1 l2 : Nat) (h12 : o1 ≤ o2)
    (h1 : (write_all Chunk.empty ws).debuginfo_at o1 = LookupResult.ok l1)
    (h2 : (write_all Chunk.empty ws).debuginfo_at o2 = LookupResult.ok l2) :
    l1 ≤ l2 := by
  obtain ⟨M, hs, hl, _, _⟩ := write_all_ChunkInv ws Chunk.empty 0 empty_ChunkInv hw
  exact debuginfo_ok_monotone _ hs hl o1 o2 l1 l2 h12 h1 h2

/-- Witness for `chunk_line_table_monotone`: two writes at lines 1 then 2
produce lookups `ok 1` at offset 0 and `ok 2` at offset 1, with `1 ≤ 2`. -/
theorem chunk_line_table_monotone_witness :
    (write_all Chunk.empty [(3, 1), (4, 2)]).debuginfo_at 0 = LookupResult.ok 1 ∧
      (write_all Chunk.empty [(3, 1), (4, 2)]).debuginfo_at 1 = LookupResult.ok 2 ∧
      (1 : Nat) ≤ 2 :=
  ⟨by decide, by decide,
    chunk_line_table_monotone [(3, 1), (4, 2)]
      (List.Chain.cons (by norm_num) (List.Chain.cons (by norm_num) List.Chain.nil))
      0 1 1 2 (by norm_num) (by decide) (by decide)⟩

end Lox
